import Mathlib

set_option autoImplicit false

/-
Shallow embedding of pkg/client/legacylisters/listers_core.go: typed listers
over a generic object store, and the label-selector relationship resolvers
GetPodServices (Kind A) and GetPodControllers (Kind B).

The generic store (pkg/client/cache: Indexer.GetByKey, Indexer.Index,
cache.ListAll, cache.ListAllByNamespace) and the label/selector package
(labels.Set, AsSelectorPreValidated, Matches, Empty, Everything) are not in
the sources; those collaborators are modelled from the spec, as noted on
each definition. Everything else follows listers_core.go.
-/

namespace Listers

/-- Label mapping: an association list of key/value string pairs (Go
map[string]string with unique keys). -/
abbrev Labels := List (String × String)

/-- Lookup of a key in a label mapping (Go map indexing). -/
def labelsGet (ls : Labels) (k : String) : Option String :=
  (ls.find? (fun kv => kv.1 == k)).map (fun kv => kv.2)

/-- Modelled from the spec: labels.Set(m) for a Go map m that may be nil; a
nil map gives the empty set of requirements. -/
def goSet : Option Labels → Labels
  | none => []
  | some m => m

/-- Modelled from the spec: the selector obtained from a label set by
AsSelectorPreValidated — one equality requirement per key/value pair. -/
structure SetSelector where
  reqs : Labels
deriving DecidableEq

/-- Modelled from the spec: Selector.Matches(labels) — every requirement
key/value pair must be present in the given label mapping. -/
def SetSelector.Matches (s : SetSelector) (ls : Labels) : Bool :=
  s.reqs.all (fun kv => labelsGet ls kv.1 == some kv.2)

/-- Modelled from the spec: Selector.Empty() — true iff zero requirements. -/
def SetSelector.Empty (s : SetSelector) : Bool :=
  s.reqs.isEmpty

/-- Modelled from the spec: a generic labels.Selector as consumed by the
listing paths, which only use its Matches capability. -/
abbrev Selector := Labels → Bool

/-- Modelled from the spec: labels.Everything(), the match-everything
selector. -/
def Everything : Selector := fun _ => true

/-- Object identity and labels (the ObjectMeta fields this subsystem reads).
The namespace field is spelled nspace because namespace is a Lean keyword. -/
structure ObjectMeta where
  nspace : String
  name : String
  labels : Labels
deriving DecidableEq

/-- A v1.Pod as read by this subsystem. -/
structure Pod where
  meta : ObjectMeta
deriving DecidableEq

/-- A v1.Service: Spec.Selector is a Go map that may be nil (none). -/
structure Service where
  meta : ObjectMeta
  specSelector : Option Labels
deriving DecidableEq

/-- A v1.ReplicationController: Spec.Selector may be nil (none). -/
structure ReplicationController where
  meta : ObjectMeta
  specSelector : Option Labels
deriving DecidableEq

/-- A value held by the generic store: any of the kinds that can be wired
into a lister. A lister for one kind treats the other kinds as unexpected. -/
inductive StoreObj where
  | pod : Pod → StoreObj
  | service : Service → StoreObj
  | rc : ReplicationController → StoreObj
deriving DecidableEq

/-- ObjectMeta of a stored value (meta.Accessor). -/
def StoreObj.meta : StoreObj → ObjectMeta
  | .pod p => p.meta
  | .service s => s.meta
  | .rc r => r.meta

/-- Composite key of a stored value: namespace + "/" + name. -/
def StoreObj.key (o : StoreObj) : String :=
  o.meta.nspace ++ "/" ++ o.meta.name

/-- Modelled from the spec: the external Object Store (cache.Indexer), a
keyed and namespace-indexed mapping; err is the store-level enumeration or
lookup failure (StoreUnavailable) surfaced by every capability. -/
structure Store where
  objs : List StoreObj
  err : Option String
deriving DecidableEq

/-- Modelled from the spec: GetByKey(compositeKey) returning
(object, found, err); found is the Option, err the Except layer. -/
def Store.GetByKey (st : Store) (key : String) : Except String (Option StoreObj) :=
  match st.err with
  | some e => .error e
  | none => .ok (st.objs.find? (fun o => o.key == key))

/-- Modelled from the spec: cache.ListAll — snapshot the entire store and
keep the entries whose labels satisfy the selector. -/
def Store.ListAll (st : Store) (sel : Selector) : Except String (List StoreObj) :=
  match st.err with
  | some e => .error e
  | none => .ok (st.objs.filter (fun o => sel o.meta.labels))

/-- Modelled from the spec: cache.ListAllByNamespace — the namespace-indexed
enumeration, then the same selector filtering. -/
def Store.ListAllByNamespace (st : Store) (ns : String) (sel : Selector) :
    Except String (List StoreObj) :=
  match st.err with
  | some e => .error e
  | none =>
    .ok ((st.objs.filter (fun o => o.meta.nspace == ns)).filter
      (fun o => sel o.meta.labels))

/-- Modelled from the spec: Indexer.Index(NamespaceIndex, key) — all stored
values in the probe key's namespace. -/
def Store.IndexNamespace (st : Store) (ns : String) : Except String (List StoreObj) :=
  match st.err with
  | some e => .error e
  | none => .ok (st.objs.filter (fun o => o.meta.nspace == ns))

/-- Errors a lister operation can return (the fmt.Errorf / errors.NewNotFound
values, by their constituent data). -/
inductive LErr where
  | store : String → LErr
  | notFound : String → String → LErr
  | noLabels : String → LErr
  | noMatchingOwner : String → String → Labels → LErr
deriving DecidableEq

/-- Outcome of a Go call that returns (value, err): ok v models (v, nil),
err e models (nil, e), and panicked models a runtime panic (a failed
single-value type assertion such as m.(*v1.Pod)). -/
inductive GoResult (α : Type) where
  | ok : α → GoResult α
  | err : LErr → GoResult α
  | panicked : GoResult α
deriving DecidableEq

/-- A Go slice of values; written this way so that signatures inside a
lister's namespace are not captured by the lister's own List method. -/
abbrev GoSlice (α : Type) := List α

/-- Go type assertion m.(*v1.Pod): some on a pod, none (panic) otherwise. -/
def asPod : StoreObj → Option Pod
  | .pod p => some p
  | _ => none

/-- Go type assertion m.(*v1.Service). -/
def asService : StoreObj → Option Service
  | .service s => some s
  | _ => none

/-- Go type assertion m.(*v1.ReplicationController). -/
def asRC : StoreObj → Option ReplicationController
  | .rc r => some r
  | _ => none

/-- Sequential type assertion over a listed snapshot, as performed by the
append callbacks: the first value of an unexpected kind panics (none). -/
def assertAll {α : Type} (f : StoreObj → Option α) : List StoreObj → Option (List α)
  | [] => some []
  | o :: rest =>
    match f o with
    | some a => (assertAll f rest).map (fun as => a :: as)
    | none => none

/-- StoreToPodLister.List: cache.ListAll with an append callback asserting
each entry to *v1.Pod. -/
def StoreToPodLister.List (st : Store) (sel : Selector) : GoResult (List Pod) :=
  match st.ListAll sel with
  | .error e => .err (.store e)
  | .ok objs =>
    match assertAll asPod objs with
    | none => .panicked
    | some ps => .ok ps

/-- storePodsNamespacer.List: cache.ListAllByNamespace with the same
asserting append callback. -/
def storePodsNamespacer.List (st : Store) (ns : String) (sel : Selector) :
    GoResult (List Pod) :=
  match st.ListAllByNamespace ns sel with
  | .error e => .err (.store e)
  | .ok objs =>
    match assertAll asPod objs with
    | none => .panicked
    | some ps => .ok ps

/-- storePodsNamespacer.Get: GetByKey on namespace + "/" + name; store error
first, then NotFound when absent, then the assertion obj.(*v1.Pod). -/
def storePodsNamespacer.Get (st : Store) (ns n : String) : GoResult Pod :=
  match st.GetByKey (ns ++ "/" ++ n) with
  | .error e => .err (.store e)
  | .ok none => .err (.notFound "pod" n)
  | .ok (some o) =>
    match asPod o with
    | some p => .ok p
    | none => .panicked

/-- StoreToServiceLister.List. -/
def StoreToServiceLister.List (st : Store) (sel : Selector) : GoResult (List Service) :=
  match st.ListAll sel with
  | .error e => .err (.store e)
  | .ok objs =>
    match assertAll asService objs with
    | none => .panicked
    | some ss => .ok ss

/-- storeServicesNamespacer.List. -/
def storeServicesNamespacer.List (st : Store) (ns : String) (sel : Selector) :
    GoResult (List Service) :=
  match st.ListAllByNamespace ns sel with
  | .error e => .err (.store e)
  | .ok objs =>
    match assertAll asService objs with
    | none => .panicked
    | some ss => .ok ss

/-- storeServicesNamespacer.Get. -/
def storeServicesNamespacer.Get (st : Store) (ns n : String) : GoResult Service :=
  match st.GetByKey (ns ++ "/" ++ n) with
  | .error e => .err (.store e)
  | .ok none => .err (.notFound "service" n)
  | .ok (some o) =>
    match asService o with
    | some s => .ok s
    | none => .panicked

/-- StoreToServiceLister.GetPodServices: list every service in the pod's
namespace with labels.Everything(), return (nil, err) on a listing error,
then keep exactly the services whose Spec.Selector is non-nil and whose
derived selector matches the pod's labels. -/
def StoreToServiceLister.GetPodServices (st : Store) (pod : Pod) :
    GoResult (GoSlice Service) :=
  match storeServicesNamespacer.List st pod.meta.nspace Everything with
  | .err e => .err e
  | .panicked => .panicked
  | .ok allServices =>
    .ok (allServices.filter (fun service =>
      match service.specSelector with
      | none => false
      | some m => (SetSelector.mk m).Matches pod.meta.labels))

/-- storeReplicationControllersNamespacer.Get. -/
def storeReplicationControllersNamespacer.Get (st : Store) (ns n : String) :
    GoResult ReplicationController :=
  match st.GetByKey (ns ++ "/" ++ n) with
  | .error e => .err (.store e)
  | .ok none => .err (.notFound "replicationcontroller" n)
  | .ok (some o) =>
    match asRC o with
    | some r => .ok r
    | none => .panicked

/-- StoreToReplicationControllerLister.GetPodControllers: fail fast when the
pod has no labels; list the pod's namespace through the namespace index,
returning (nil, err) on a store error; assert each item to an rc; keep the
rcs whose derived selector is non-empty and matches the pod's labels; fail
with the no-matching-controller error when none remain. -/
def StoreToReplicationControllerLister.GetPodControllers (st : Store) (pod : Pod) :
    GoResult (GoSlice ReplicationController) :=
  if pod.meta.labels.length == 0 then
    .err (.noLabels pod.meta.name)
  else
    match st.IndexNamespace pod.meta.nspace with
    | .error e => .err (.store e)
    | .ok items =>
      match assertAll asRC items with
      | none => .panicked
      | some rcs =>
        let controllers := rcs.filter (fun rc =>
          let selector := SetSelector.mk (goSet rc.specSelector)
          !(selector.Empty || !selector.Matches pod.meta.labels))
        if controllers.length == 0 then
          .err (.noMatchingOwner pod.meta.name pod.meta.nspace pod.meta.labels)
        else
          .ok controllers

end Listers

namespace Listers

/-- Concrete objects used by the closed witness statements below. -/
def svcX : Service := ⟨⟨"ns1", "svcA", []⟩, some [("app", "x")]⟩

def svcNoSel : Service := ⟨⟨"ns1", "svcB", []⟩, none⟩

def svcEmptySel : Service := ⟨⟨"ns1", "svcC", []⟩, some []⟩

def podX : Pod := ⟨⟨"ns1", "p1", [("app", "x")]⟩⟩

def rcEmptySel : ReplicationController := ⟨⟨"ns1", "rcA", []⟩, some []⟩

def rcX : ReplicationController := ⟨⟨"ns1", "rcB", []⟩, some [("app", "x")]⟩

def rcY : ReplicationController := ⟨⟨"ns1", "rcC", []⟩, some [("app", "x")]⟩

def podNoLabels : Pod := ⟨⟨"ns1", "p4", []⟩⟩

def podNs2 : Pod := ⟨⟨"ns2", "p9", [("app", "x")]⟩⟩

def stSvc : Store := ⟨[.service svcX, .service svcNoSel], none⟩

def stRC2 : Store := ⟨[.rc rcX, .rc rcY], none⟩

def stRCEmpty : Store := ⟨[.rc rcEmptySel, .rc rcX], none⟩

def stSvcEmpty : Store := ⟨[.service svcEmptySel], none⟩

def stWrongKind : Store := ⟨[.service svcX], none⟩

def stMixed : Store := ⟨[.pod podX, .service svcX], none⟩

def stPods : Store := ⟨[.pod podX, .pod podNs2], none⟩

def stDown : Store := ⟨[], some "store unavailable"⟩

def selAppX : Selector := fun ls => labelsGet ls "app" == some "x"

/-- The controllers in the pod's namespace whose derived selector is
non-empty and matches the pod's labels: the candidate set that
GetPodControllers filters out of the namespace index. -/
def nsMatchingControllers (st : Store) (pod : Pod) : List ReplicationController :=
  ((st.objs.filter fun o => o.meta.nspace == pod.meta.nspace).filterMap asRC).filter
    fun rc =>
      let selector := SetSelector.mk (goSet rc.specSelector)
      !(selector.Empty || !selector.Matches pod.meta.labels)

end Listers

namespace Listers

theorem assertAll_eq_filterMap {α : Type} (f : StoreObj → Option α) :
    ∀ (l : List StoreObj) (res : List α), assertAll f l = some res → res = l.filterMap f := by
  intro l
  induction l with
  | nil =>
    intro res h
    simp only [assertAll, Option.some.injEq] at h
    simp [← h]
  | cons o rest ih =>
    intro res h
    cases hfo : f o with
    | none => simp [assertAll, hfo] at h
    | some a =>
      cases hrest : assertAll f rest with
      | none => simp [assertAll, hfo, hrest] at h
      | some as =>
        simp only [assertAll, hfo, hrest, Option.map_some', Option.some.injEq] at h
        simp [← h, List.filterMap_cons, hfo, ih as hrest]

theorem assertAll_eq_some_of {α : Type} (f : StoreObj → Option α) :
    ∀ l : List StoreObj, (∀ o ∈ l, (f o).isSome) → assertAll f l = some (l.filterMap f) := by
  intro l
  induction l with
  | nil => intro _; simp [assertAll]
  | cons o rest ih =>
    intro h
    have ho := h o (by simp)
    cases hfo : f o with
    | none => simp [hfo] at ho
    | some a =>
      have hr := ih (fun x hx => h x (by simp [hx]))
      simp [assertAll, hfo, hr, List.filterMap_cons]

theorem assertAll_eq_none_of_mem {α : Type} (f : StoreObj → Option α) :
    ∀ (l : List StoreObj) (o : StoreObj), o ∈ l → f o = none → assertAll f l = none := by
  intro l
  induction l with
  | nil => intro o h; simp at h
  | cons x rest ih =>
    intro o ho hfo
    rcases List.mem_cons.mp ho with h | h
    · subst h; simp [assertAll, hfo]
    · cases hfx : f x with
      | none => simp [assertAll, hfx]
      | some a => simp [assertAll, hfx, ih o h hfo]

theorem mem_filterMap_asService {l : List StoreObj} {svc : Service} :
    svc ∈ l.filterMap asService ↔ StoreObj.service svc ∈ l := by
  simp only [List.mem_filterMap]
  constructor
  · rintro ⟨o, ho, hs⟩
    cases o with
    | service s => simp only [asService, Option.some.injEq] at hs; exact hs ▸ ho
    | pod p => simp [asService] at hs
    | rc r => simp [asService] at hs
  · intro h; exact ⟨_, h, rfl⟩

theorem mem_filterMap_asRC {l : List StoreObj} {r : ReplicationController} :
    r ∈ l.filterMap asRC ↔ StoreObj.rc r ∈ l := by
  simp only [List.mem_filterMap]
  constructor
  · rintro ⟨o, ho, hs⟩
    cases o with
    | rc x => simp only [asRC, Option.some.injEq] at hs; exact hs ▸ ho
    | pod p => simp [asRC] at hs
    | service s => simp [asRC] at hs
  · intro h; exact ⟨_, h, rfl⟩

theorem mem_filterMap_asPod {l : List StoreObj} {p : Pod} :
    p ∈ l.filterMap asPod ↔ StoreObj.pod p ∈ l := by
  simp only [List.mem_filterMap]
  constructor
  · rintro ⟨o, ho, hs⟩
    cases o with
    | pod x => simp only [asPod, Option.some.injEq] at hs; exact hs ▸ ho
    | service s => simp [asPod] at hs
    | rc r => simp [asPod] at hs
  · intro h; exact ⟨_, h, rfl⟩

theorem filter_everything (l : List StoreObj) :
    (l.filter fun o => Everything o.meta.labels) = l := by
  simp [Everything]

end Listers

namespace Listers

theorem servicesNamespacerList_ok {st : Store} {ns : String} {svcs : List Service}
    (h : storeServicesNamespacer.List st ns Everything = .ok svcs) :
    st.err = none ∧
      svcs = (st.objs.filter fun o => o.meta.nspace == ns).filterMap asService := by
  unfold storeServicesNamespacer.List Store.ListAllByNamespace at h
  cases herr : st.err with
  | some e => rw [herr] at h; simp at h
  | none =>
    rw [herr] at h
    simp only [filter_everything] at h
    cases hass : assertAll asService (st.objs.filter fun o => o.meta.nspace == ns) with
    | none => simp [hass] at h
    | some ss =>
      simp only [hass, GoResult.ok.injEq] at h
      subst h
      exact ⟨rfl, assertAll_eq_filterMap _ _ _ hass⟩

theorem servicesNamespacerList_eq {st : Store} {ns : String}
    (herr : st.err = none)
    (htyped : ∀ o ∈ st.objs, o.meta.nspace = ns → (asService o).isSome) :
    storeServicesNamespacer.List st ns Everything =
      .ok ((st.objs.filter fun o => o.meta.nspace == ns).filterMap asService) := by
  unfold storeServicesNamespacer.List Store.ListAllByNamespace
  rw [herr]
  have hall : ∀ o ∈ (st.objs.filter fun o => o.meta.nspace == ns), (asService o).isSome := by
    intro o ho
    rw [List.mem_filter] at ho
    exact htyped o ho.1 (by simpa using ho.2)
  simp only [filter_everything, assertAll_eq_some_of asService _ hall]

theorem getPodServices_ok_mem {st : Store} {pod : Pod} {svcs : List Service}
    (h : StoreToServiceLister.GetPodServices st pod = .ok svcs) (svc : Service) :
    svc ∈ svcs ↔
      (StoreObj.service svc ∈ st.objs ∧ svc.meta.nspace = pod.meta.nspace ∧
       ∃ m, svc.specSelector = some m ∧
         (SetSelector.mk m).Matches pod.meta.labels = true) := by
  unfold StoreToServiceLister.GetPodServices at h
  cases hl : storeServicesNamespacer.List st pod.meta.nspace Everything with
  | err e => rw [hl] at h; simp at h
  | panicked => rw [hl] at h; simp at h
  | ok allServices =>
    rw [hl] at h
    simp only [GoResult.ok.injEq] at h
    subst h
    obtain ⟨-, hfm⟩ := servicesNamespacerList_ok hl
    subst hfm
    rw [List.mem_filter, mem_filterMap_asService, List.mem_filter]
    constructor
    · rintro ⟨⟨hmem, hns⟩, hpred⟩
      refine ⟨hmem, by simpa [StoreObj.meta] using hns, ?_⟩
      cases hsel : svc.specSelector with
      | none => rw [hsel] at hpred; simp at hpred
      | some m => exact ⟨m, rfl, by rw [hsel] at hpred; simpa using hpred⟩
    · rintro ⟨hmem, hns, m, hsel, hmatch⟩
      refine ⟨⟨hmem, by simp [StoreObj.meta, hns]⟩, ?_⟩
      rw [hsel]
      simpa using hmatch

end Listers

namespace Listers

theorem mem_nsMatchingControllers {st : Store} {pod : Pod} {rc : ReplicationController} :
    rc ∈ nsMatchingControllers st pod ↔
      (StoreObj.rc rc ∈ st.objs ∧ rc.meta.nspace = pod.meta.nspace ∧
       (SetSelector.mk (goSet rc.specSelector)).Empty = false ∧
       (SetSelector.mk (goSet rc.specSelector)).Matches pod.meta.labels = true) := by
  unfold nsMatchingControllers
  rw [List.mem_filter, mem_filterMap_asRC, List.mem_filter]
  simp [StoreObj.meta, Bool.not_or, and_assoc]

theorem indexNamespace_ok {st : Store} {ns : String} {items : List StoreObj}
    (h : st.IndexNamespace ns = .ok items) :
    st.err = none ∧ items = st.objs.filter fun o => o.meta.nspace == ns := by
  unfold Store.IndexNamespace at h
  cases herr : st.err with
  | some e => rw [herr] at h; simp at h
  | none =>
    rw [herr] at h
    simp only [Except.ok.injEq] at h
    exact ⟨rfl, h.symm⟩

theorem getPodControllers_ok_shape {st : Store} {pod : Pod}
    {rcs : List ReplicationController}
    (h : StoreToReplicationControllerLister.GetPodControllers st pod = .ok rcs) :
    st.err = none ∧ rcs = nsMatchingControllers st pod ∧ rcs ≠ [] := by
  unfold StoreToReplicationControllerLister.GetPodControllers at h
  split at h
  · exact absurd h (by simp)
  · split at h
    next e hidx => exact absurd h (by simp)
    next items hidx =>
      split at h
      next hass => exact absurd h (by simp)
      next rcs0 hass =>
        simp only [] at h
        split at h
        · exact absurd h (by simp)
        next hc =>
          simp only [GoResult.ok.injEq] at h
          obtain ⟨herr, hitems⟩ := indexNamespace_ok hidx
          subst hitems
          have hfm := assertAll_eq_filterMap _ _ _ hass
          refine ⟨herr, ?_, ?_⟩
          · rw [← h]
            unfold nsMatchingControllers
            rw [hfm]
          · intro hnil
            rw [← h] at hnil
            rw [hnil] at hc
            simp at hc

end Listers

namespace Listers

theorem indexNamespace_eq {st : Store} {ns : String} (herr : st.err = none) :
    st.IndexNamespace ns = .ok (st.objs.filter fun o => o.meta.nspace == ns) := by
  unfold Store.IndexNamespace
  rw [herr]

theorem getPodControllers_reduced {st : Store} {pod : Pod}
    (hlab : pod.meta.labels ≠ []) (herr : st.err = none)
    (htyped : ∀ o ∈ st.objs, o.meta.nspace = pod.meta.nspace → (asRC o).isSome) :
    StoreToReplicationControllerLister.GetPodControllers st pod =
      if (nsMatchingControllers st pod).length == 0 then
        .err (.noMatchingOwner pod.meta.name pod.meta.nspace pod.meta.labels)
      else .ok (nsMatchingControllers st pod) := by
  unfold StoreToReplicationControllerLister.GetPodControllers
  have hlen : (pod.meta.labels.length == 0) = false := by
    have hne : pod.meta.labels.length ≠ 0 := fun hc => hlab (List.length_eq_zero.mp hc)
    simp [hne]
  rw [hlen]
  have hassEq := assertAll_eq_some_of asRC
    (st.objs.filter fun o => o.meta.nspace == pod.meta.nspace) (fun o ho => by
      rw [List.mem_filter] at ho
      exact htyped o ho.1 (by simpa using ho.2))
  rw [indexNamespace_eq herr]
  simp only [Bool.false_eq_true, if_false, hassEq]
  rfl

theorem podsListAll_eq {st : Store} {sel : Selector} (herr : st.err = none)
    (htyped : ∀ o ∈ st.objs, sel o.meta.labels = true → (asPod o).isSome) :
    StoreToPodLister.List st sel =
      .ok ((st.objs.filter fun o => sel o.meta.labels).filterMap asPod) := by
  unfold StoreToPodLister.List Store.ListAll
  rw [herr]
  have hassEq := assertAll_eq_some_of asPod
    (st.objs.filter fun o => sel o.meta.labels) (fun o ho => by
      rw [List.mem_filter] at ho
      exact htyped o ho.1 ho.2)
  simp only [hassEq]

theorem podsNamespacerList_eq {st : Store} {ns : String} {sel : Selector}
    (herr : st.err = none)
    (htyped : ∀ o ∈ st.objs, sel o.meta.labels = true → (asPod o).isSome) :
    storePodsNamespacer.List st ns sel =
      .ok (((st.objs.filter fun o => o.meta.nspace == ns).filter
        fun o => sel o.meta.labels).filterMap asPod) := by
  unfold storePodsNamespacer.List Store.ListAllByNamespace
  rw [herr]
  have hassEq := assertAll_eq_some_of asPod
    ((st.objs.filter fun o => o.meta.nspace == ns).filter fun o => sel o.meta.labels)
    (fun o ho => by
      rw [List.mem_filter] at ho
      exact htyped o (List.mem_filter.mp ho.1).1 ho.2)
  simp only [hassEq]

end Listers

namespace Listers

/-- C1: for every pod and every store state within the store contract
(enumeration succeeds; the service store holds only services in the pod's
namespace), GetPodServices returns without error exactly those services in
the pod's namespace whose declared selector field is non-nil and whose
selector matches the pod's labels (the result may be empty). -/
theorem claim_C1_getPodServices_exact (st : Store) (pod : Pod)
    (herr : st.err = none)
    (htyped : ∀ o ∈ st.objs, o.meta.nspace = pod.meta.nspace → (asService o).isSome) :
    ∃ svcs, StoreToServiceLister.GetPodServices st pod = .ok svcs ∧
      ∀ svc, svc ∈ svcs ↔
        (StoreObj.service svc ∈ st.objs ∧ svc.meta.nspace = pod.meta.nspace ∧
         ∃ m, svc.specSelector = some m ∧
           (SetSelector.mk m).Matches pod.meta.labels = true) := by
  have hlist := servicesNamespacerList_eq herr htyped
  have hok : StoreToServiceLister.GetPodServices st pod =
      .ok (((st.objs.filter fun o => o.meta.nspace == pod.meta.nspace).filterMap
        asService).filter fun service =>
          match service.specSelector with
          | none => false
          | some m => (SetSelector.mk m).Matches pod.meta.labels) := by
    unfold StoreToServiceLister.GetPodServices
    rw [hlist]
  exact ⟨_, hok, fun svc => getPodServices_ok_mem hok svc⟩

/-- C5: a service whose selector field is nil is never in a GetPodServices
result, whatever the pod and the store state. -/
theorem claim_C5_nil_selector_never_included (st : Store) (pod : Pod)
    (svcs : List Service) (svc : Service)
    (h : StoreToServiceLister.GetPodServices st pod = .ok svcs)
    (hnil : svc.specSelector = none) :
    svc ∉ svcs := by
  intro hmem
  obtain ⟨-, -, m, hsel, -⟩ := (getPodServices_ok_mem h svc).mp hmem
  rw [hnil] at hsel
  exact Option.noConfusion hsel

/-- C6: a service in the pod's namespace whose selector field is present but
empty is always included, the pod's labels notwithstanding (a present-but-
empty selector matches every label mapping). -/
theorem claim_C6_empty_selector_included (st : Store) (pod : Pod)
    (svc : Service) (svcs : List Service)
    (hmem : StoreObj.service svc ∈ st.objs)
    (hns : svc.meta.nspace = pod.meta.nspace)
    (hsel : svc.specSelector = some [])
    (h : StoreToServiceLister.GetPodServices st pod = .ok svcs) :
    svc ∈ svcs := by
  exact (getPodServices_ok_mem h svc).mpr ⟨hmem, hns, [], hsel, rfl⟩

/-- C3: a pod with an empty label set makes GetPodControllers fail with the
no-labels error on every store state, including stores whose enumeration
would fail — the store is never consulted. -/
theorem claim_C3_noLabels_fail_fast (st : Store) (pod : Pod)
    (h : pod.meta.labels = []) :
    StoreToReplicationControllerLister.GetPodControllers st pod =
      .err (.noLabels pod.meta.name) := by
  unfold StoreToReplicationControllerLister.GetPodControllers
  rw [h]
  simp

/-- C10: when store enumeration fails, GetPodServices returns exactly that
store error and no list for every pod, labelled or not, and so does
GetPodControllers whenever its enumeration is reached, that is for every
pod with labels (with an empty label set Kind B fails before the store). -/
theorem claim_C10_store_error_propagates (st : Store) (pod : Pod) (e : String)
    (herr : st.err = some e) :
    StoreToServiceLister.GetPodServices st pod = .err (.store e) ∧
    (pod.meta.labels ≠ [] →
      StoreToReplicationControllerLister.GetPodControllers st pod =
        .err (.store e)) := by
  constructor
  · unfold StoreToServiceLister.GetPodServices storeServicesNamespacer.List
      Store.ListAllByNamespace
    rw [herr]
  · intro hlab
    unfold StoreToReplicationControllerLister.GetPodControllers Store.IndexNamespace
    have hlen : (pod.meta.labels.length == 0) = false := by
      have hne : pod.meta.labels.length ≠ 0 := fun hc => hlab (List.length_eq_zero.mp hc)
      simp [hne]
    rw [hlen, herr]
    simp only [Bool.false_eq_true, if_false]

end Listers

namespace Listers

/-- C2: for a pod with labels, against a store within the contract,
GetPodControllers fails with the no-matching-owner error (carrying the pod's
name, namespace and labels) exactly when the set of matching controllers in
the pod's namespace is empty; otherwise it returns every matching
controller, however many there are. -/
theorem claim_C2_noMatchingOwner_iff (st : Store) (pod : Pod)
    (hlab : pod.meta.labels ≠ []) (herr : st.err = none)
    (htyped : ∀ o ∈ st.objs, o.meta.nspace = pod.meta.nspace → (asRC o).isSome) :
    (StoreToReplicationControllerLister.GetPodControllers st pod =
        .err (.noMatchingOwner pod.meta.name pod.meta.nspace pod.meta.labels) ↔
      nsMatchingControllers st pod = []) ∧
    (nsMatchingControllers st pod ≠ [] →
      StoreToReplicationControllerLister.GetPodControllers st pod =
        .ok (nsMatchingControllers st pod)) ∧
    (∀ rc, rc ∈ nsMatchingControllers st pod ↔
      (StoreObj.rc rc ∈ st.objs ∧ rc.meta.nspace = pod.meta.nspace ∧
       (SetSelector.mk (goSet rc.specSelector)).Empty = false ∧
       (SetSelector.mk (goSet rc.specSelector)).Matches pod.meta.labels = true)) := by
  have hred := getPodControllers_reduced hlab herr htyped
  refine ⟨?_, ?_, fun rc => mem_nsMatchingControllers⟩
  · cases hM : nsMatchingControllers st pod with
    | nil =>
      rw [hM] at hred
      simp at hred
      exact ⟨fun _ => rfl, fun _ => hred⟩
    | cons a l =>
      rw [hM] at hred
      simp at hred
      constructor
      · intro hc
        rw [hred] at hc
        exact absurd hc (by simp)
      · intro he
        exact absurd he (List.cons_ne_nil a l)
  · intro hne
    cases hM : nsMatchingControllers st pod with
    | nil => exact absurd hM hne
    | cons a l =>
      rw [hM] at hred
      simp at hred
      exact hred

/-- C4: a controller whose derived selector is empty (nil selector field or
zero requirements) is never in a GetPodControllers result, whatever the
pod's labels and the store state. -/
theorem claim_C4_empty_selector_never_included (st : Store) (pod : Pod)
    (rcs : List ReplicationController) (rc : ReplicationController)
    (h : StoreToReplicationControllerLister.GetPodControllers st pod = .ok rcs)
    (hsel : goSet rc.specSelector = []) :
    rc ∉ rcs := by
  intro hmem
  obtain ⟨-, hrcs, -⟩ := getPodControllers_ok_shape h
  subst hrcs
  obtain ⟨-, -, hemp, -⟩ := mem_nsMatchingControllers.mp hmem
  rw [hsel] at hemp
  simp [SetSelector.Empty] at hemp

/-- C7 counterexample: with one wrong-kind value in the store, the pod
lister's List does not skip the entry and return an empty result — the call
panics — and Get on that entry's key panics instead of failing with a
type-mismatch error. -/
theorem claim_C7_counterexample :
    StoreToPodLister.List stWrongKind Everything = GoResult.panicked ∧
    StoreToPodLister.List stWrongKind Everything ≠ GoResult.ok [] ∧
    storePodsNamespacer.Get stWrongKind "ns1" "svcA" = GoResult.panicked := by
  refine ⟨by decide, by decide, by decide⟩

/-- C7 amended: a value of an unexpected kind in the store makes the
whole-store listing panic (the listing crashes; nothing is skipped), and
makes the exact-key lookup panic on that entry's key rather than fail with a
type-mismatch error; the listers rely on the documented contract that stores
contain only the expected type. -/
theorem claim_C7_amended_panics (st : Store) (herr : st.err = none) :
    (∀ o ∈ st.objs, asPod o = none →
      StoreToPodLister.List st Everything = GoResult.panicked) ∧
    (∀ ns n o, st.objs.find? (fun x => x.key == ns ++ "/" ++ n) = some o →
      asPod o = none → storePodsNamespacer.Get st ns n = GoResult.panicked) := by
  constructor
  · intro o ho hwrong
    unfold StoreToPodLister.List Store.ListAll
    rw [herr]
    have hass := assertAll_eq_none_of_mem asPod
      (st.objs.filter fun x => Everything x.meta.labels) o
      (by rw [filter_everything]; exact ho) hwrong
    simp only [hass]
  · intro ns n o hfind hwrong
    unfold storePodsNamespacer.Get Store.GetByKey
    simp only [herr, hfind, hwrong]

/-- C8: Get looks up exactly the composite key namespace + "/" + name; with
the store healthy, an absent key yields the kind-and-name not-found error
and a present key yields the stored object (shown for the pod and service
listers, the two cited by the spec). -/
theorem claim_C8_get_by_composite_key (st : Store) (ns n : String)
    (herr : st.err = none) :
    (st.objs.find? (fun o => o.key == ns ++ "/" ++ n) = none →
      storePodsNamespacer.Get st ns n = .err (.notFound "pod" n) ∧
      storeServicesNamespacer.Get st ns n = .err (.notFound "service" n)) ∧
    (∀ p, st.objs.find? (fun o => o.key == ns ++ "/" ++ n) = some (StoreObj.pod p) →
      storePodsNamespacer.Get st ns n = .ok p) ∧
    (∀ s, st.objs.find? (fun o => o.key == ns ++ "/" ++ n) = some (StoreObj.service s) →
      storeServicesNamespacer.Get st ns n = .ok s) := by
  refine ⟨fun hnone => ⟨?_, ?_⟩, fun p hp => ?_, fun s hs => ?_⟩
  · unfold storePodsNamespacer.Get Store.GetByKey
    simp only [herr, hnone]
  · unfold storeServicesNamespacer.Get Store.GetByKey
    simp only [herr, hnone]
  · unfold storePodsNamespacer.Get Store.GetByKey
    simp only [herr, hp]
    rfl
  · unfold storeServicesNamespacer.Get Store.GetByKey
    simp only [herr, hs]
    rfl

/-- C9: with the store healthy and the pod store well-kinded on the entries
the selector retains, the namespace-scoped listing is exactly the whole-
store listing restricted to that namespace, and the whole-store listing
holds exactly the pods whose labels satisfy the selector. Both listings are
pure functions of the store, so repeated calls return the same result. -/
theorem claim_C9_namespace_listing_consistent (st : Store) (ns : String)
    (sel : Selector) (herr : st.err = none)
    (htyped : ∀ o ∈ st.objs, sel o.meta.labels = true → (asPod o).isSome) :
    ∃ all nsl,
      StoreToPodLister.List st sel = .ok all ∧
      storePodsNamespacer.List st ns sel = .ok nsl ∧
      (∀ p, p ∈ nsl ↔ (p ∈ all ∧ p.meta.nspace = ns)) ∧
      (∀ p, p ∈ all ↔ (StoreObj.pod p ∈ st.objs ∧ sel p.meta.labels = true)) := by
  refine ⟨_, _, podsListAll_eq herr htyped, podsNamespacerList_eq herr htyped, ?_, ?_⟩
  · intro p
    simp only [mem_filterMap_asPod, List.mem_filter, StoreObj.meta, beq_iff_eq]
    tauto
  · intro p
    simp only [mem_filterMap_asPod, List.mem_filter, StoreObj.meta]

end Listers

namespace Listers

/-- C1 witness: the two hypotheses hold at a concrete store of two services
and the claim's conclusion follows there. -/
theorem claim_C1_witness :
    (stSvc.err = none ∧
      ∀ o ∈ stSvc.objs, o.meta.nspace = podX.meta.nspace → (asService o).isSome) ∧
    (∃ svcs, StoreToServiceLister.GetPodServices stSvc podX = .ok svcs ∧
      ∀ svc, svc ∈ svcs ↔
        (StoreObj.service svc ∈ stSvc.objs ∧ svc.meta.nspace = podX.meta.nspace ∧
         ∃ m, svc.specSelector = some m ∧
           (SetSelector.mk m).Matches podX.meta.labels = true)) :=
  ⟨⟨rfl, by decide⟩, claim_C1_getPodServices_exact stSvc podX rfl (by decide)⟩

/-- C2 witness: a concrete store with two controllers both selecting the
pod's labels; both hypotheses and the conclusion hold there. -/
theorem claim_C2_witness :
    (podX.meta.labels ≠ [] ∧ stRC2.err = none ∧
      ∀ o ∈ stRC2.objs, o.meta.nspace = podX.meta.nspace → (asRC o).isSome) ∧
    ((StoreToReplicationControllerLister.GetPodControllers stRC2 podX =
        .err (.noMatchingOwner podX.meta.name podX.meta.nspace podX.meta.labels) ↔
      nsMatchingControllers stRC2 podX = []) ∧
     (nsMatchingControllers stRC2 podX ≠ [] →
       StoreToReplicationControllerLister.GetPodControllers stRC2 podX =
         .ok (nsMatchingControllers stRC2 podX)) ∧
     (∀ rc, rc ∈ nsMatchingControllers stRC2 podX ↔
       (StoreObj.rc rc ∈ stRC2.objs ∧ rc.meta.nspace = podX.meta.nspace ∧
        (SetSelector.mk (goSet rc.specSelector)).Empty = false ∧
        (SetSelector.mk (goSet rc.specSelector)).Matches podX.meta.labels = true))) :=
  ⟨⟨by decide, rfl, by decide⟩,
   claim_C2_noMatchingOwner_iff stRC2 podX (by decide) rfl (by decide)⟩

/-- C3 witness: a labelless pod against a store whose enumeration would
fail; the resolver still reports the no-labels error. -/
theorem claim_C3_witness :
    podNoLabels.meta.labels = [] ∧
    StoreToReplicationControllerLister.GetPodControllers stDown podNoLabels =
      .err (.noLabels podNoLabels.meta.name) :=
  ⟨rfl, claim_C3_noLabels_fail_fast stDown podNoLabels rfl⟩

/-- C4 witness: a store holding an empty-selector controller and a matching
one; the call succeeds and the empty-selector controller is not included. -/
theorem claim_C4_witness :
    (StoreToReplicationControllerLister.GetPodControllers stRCEmpty podX =
      .ok [rcX] ∧ goSet rcEmptySel.specSelector = []) ∧
    rcEmptySel ∉ [rcX] :=
  ⟨⟨by decide, rfl⟩,
   claim_C4_empty_selector_never_included stRCEmpty podX [rcX] rcEmptySel
     (by decide) rfl⟩

/-- C5 witness: the nil-selector service of the concrete store is absent
from the successful result. -/
theorem claim_C5_witness :
    (StoreToServiceLister.GetPodServices stSvc podX = .ok [svcX] ∧
      svcNoSel.specSelector = none) ∧
    svcNoSel ∉ [svcX] :=
  ⟨⟨by decide, rfl⟩,
   claim_C5_nil_selector_never_included stSvc podX [svcX] svcNoSel (by decide) rfl⟩

/-- C6 witness: a present-but-empty-selector service is returned even for a
pod with no labels at all. -/
theorem claim_C6_witness :
    (StoreObj.service svcEmptySel ∈ stSvcEmpty.objs ∧
      svcEmptySel.specSelector = some [] ∧
      StoreToServiceLister.GetPodServices stSvcEmpty podNoLabels =
        .ok [svcEmptySel]) ∧
    svcEmptySel ∈ [svcEmptySel] :=
  ⟨⟨by decide, rfl, by decide⟩,
   claim_C6_empty_selector_included stSvcEmpty podNoLabels svcEmptySel
     [svcEmptySel] (by decide) rfl rfl (by decide)⟩

/-- C7 witness: at the concrete wrong-kind store both amended behaviors are
exhibited: the listing panics and the keyed lookup panics. -/
theorem claim_C7_witness :
    (StoreObj.service svcX ∈ stWrongKind.objs ∧ asPod (StoreObj.service svcX) = none) ∧
    StoreToPodLister.List stWrongKind Everything = GoResult.panicked ∧
    storePodsNamespacer.Get stWrongKind "ns1" "svcA" = GoResult.panicked :=
  ⟨⟨by decide, rfl⟩,
   (claim_C7_amended_panics stWrongKind rfl).1 (StoreObj.service svcX) (by decide) rfl,
   (claim_C7_amended_panics stWrongKind rfl).2 "ns1" "svcA" (StoreObj.service svcX)
     (by decide) rfl⟩

/-- C8 witness: the composite-key contract instantiated at a concrete mixed
store and the key ns1/p1. -/
theorem claim_C8_witness :
    stMixed.err = none ∧
    ((stMixed.objs.find? (fun o => o.key == "ns1" ++ "/" ++ "p1") = none →
      storePodsNamespacer.Get stMixed "ns1" "p1" = .err (.notFound "pod" "p1") ∧
      storeServicesNamespacer.Get stMixed "ns1" "p1" =
        .err (.notFound "service" "p1")) ∧
     (∀ p, stMixed.objs.find? (fun o => o.key == "ns1" ++ "/" ++ "p1") =
        some (StoreObj.pod p) →
      storePodsNamespacer.Get stMixed "ns1" "p1" = .ok p) ∧
     (∀ s, stMixed.objs.find? (fun o => o.key == "ns1" ++ "/" ++ "p1") =
        some (StoreObj.service s) →
      storeServicesNamespacer.Get stMixed "ns1" "p1" = .ok s)) :=
  ⟨rfl, claim_C8_get_by_composite_key stMixed "ns1" "p1" rfl⟩

/-- C9 witness: a two-namespace pod store and an equality selector; both
hypotheses and the instantiated listing agreement hold. -/
theorem claim_C9_witness :
    (stPods.err = none ∧
      ∀ o ∈ stPods.objs, selAppX o.meta.labels = true → (asPod o).isSome) ∧
    (∃ all nsl,
      StoreToPodLister.List stPods selAppX = .ok all ∧
      storePodsNamespacer.List stPods "ns1" selAppX = .ok nsl ∧
      (∀ p, p ∈ nsl ↔ (p ∈ all ∧ p.meta.nspace = "ns1")) ∧
      (∀ p, p ∈ all ↔ (StoreObj.pod p ∈ stPods.objs ∧ selAppX p.meta.labels = true))) :=
  ⟨⟨rfl, by decide⟩,
   claim_C9_namespace_listing_consistent stPods "ns1" selAppX rfl (by decide)⟩

/-- C10 witness: a store whose enumeration fails; Kind A surfaces exactly
that error both for a labelless pod and for a labelled one, and Kind B
surfaces it for the labelled pod. -/
theorem claim_C10_witness :
    stDown.err = some "store unavailable" ∧
    StoreToServiceLister.GetPodServices stDown podNoLabels =
      .err (.store "store unavailable") ∧
    StoreToServiceLister.GetPodServices stDown podX =
      .err (.store "store unavailable") ∧
    StoreToReplicationControllerLister.GetPodControllers stDown podX =
      .err (.store "store unavailable") :=
  ⟨rfl,
   (claim_C10_store_error_propagates stDown podNoLabels "store unavailable" rfl).1,
   (claim_C10_store_error_propagates stDown podX "store unavailable" rfl).1,
   (claim_C10_store_error_propagates stDown podX "store unavailable" rfl).2 (by decide)⟩

end Listers
